import Mathlib

/-!
Verification of the ELL `IRRuntime` runtime-function provisioning subsystem
(emitters/IRRuntime.cpp) against its natural-language specification.

The embedding models:
  * the LLVM module as a list of named function records (each records its
    declared signature and how many function bodies have been authored into it);
  * the `IRRuntime` provider (with its `_pGetCurrentTimeFunction` cache field);
  * every `Get...Function` accessor of IRRuntime.cpp, translated line by line;
  * the run-time semantics of the synthesized GEMV / GEMM fallback kernels and
    of the synthesized timing functions, with floating-point arithmetic
    idealized as exact rational arithmetic (the claims under scrutiny concern
    which operations are performed and in which order, not rounding).
-/

namespace ELL

/-- LLVM-level types, restricted to the shapes IRRuntime.cpp manipulates:
integer types of a given bit width, float, double, void, pointers, and the
two-field `timespec` struct. -/
inductive LLVMType where
  | intT (bits : Nat)
  | floatT
  | doubleT
  | voidT
  | ptr (t : LLVMType)
  | struct2 (f0 f1 : LLVMType)
  deriving DecidableEq, Repr

/-- First element type of a struct type (`StructType::getElementType(0)`). -/
def LLVMType.elem0 : LLVMType → LLVMType
  | .struct2 a _ => a
  | _ => .voidT

/-- An LLVM function type: return type and argument types. -/
structure FuncSig where
  ret : LLVMType
  args : List LLVMType
  deriving DecidableEq, Repr

/-- A function present in the module: its symbol name, its type, and the
number of function bodies that have been authored into it so far
(0 for a pure external declaration). -/
structure FuncDef where
  name : String
  sig : FuncSig
  bodies : Nat
  deriving DecidableEq, Repr

/-- Look a function up by symbol name (`llvm::Module::getFunction`). -/
def lookupFn (l : List FuncDef) (n : String) : Option FuncDef :=
  l.find? (fun fd => fd.name == n)

/-- Modelled from the spec: `IRModuleEmitter::DeclareFunction` (the
module/function-builder collaborator, whose source is not part of this
slice). Declaring a symbol that already exists leaves the module unchanged
(the existing function, whatever its signature, wins — LLVM
`getOrInsertFunction` behaviour); otherwise a declaration with no body is
added. -/
def declareFn : List FuncDef → String → FuncSig → List FuncDef
  | [], n, s => [⟨n, s, 0⟩]
  | fd :: rest, n, s =>
    if fd.name = n then fd :: rest else fd :: declareFn rest n s

/-- Modelled from the spec: `IRModuleEmitter::BeginFunction` ...
`EndFunction` (the module/function-builder collaborator, whose source is
not part of this slice). The module holds at most one function per symbol
name; opening a named function and emitting until `EndFunction` authors one
function body into the function of that name, creating the function if it
is absent. -/
def addBody : List FuncDef → String → FuncSig → List FuncDef
  | [], n, s => [⟨n, s, 1⟩]
  | fd :: rest, n, s =>
    if fd.name = n then { fd with bodies := fd.bodies + 1 } :: rest
    else fd :: addBody rest n s

/-- The target-device descriptor consulted by IRRuntime: native integer
bit-width (0 means "default to 32"), OS family, and the bit width of the
two `timespec` fields (the struct layout is supplied by the posix-runtime
collaborator). -/
structure TargetDevice where
  numBits : Nat
  isWindows : Bool
  timespecFieldBits : Nat
  deriving DecidableEq, Repr

/-- The LLVM module state: module name (namespace for public symbols),
target descriptor, and the functions known to the module. -/
structure ModuleState where
  moduleName : String
  target : TargetDevice
  funcs : List FuncDef
  deriving DecidableEq, Repr

/-- `llvm::Module::getFunction` on the module state. -/
def ModuleState.getFunction (m : ModuleState) (n : String) : Option FuncDef :=
  lookupFn m.funcs n

/-- `IRModuleEmitter::DeclareFunction` on the module state. -/
def ModuleState.declareFunction (m : ModuleState) (n : String) (s : FuncSig) : ModuleState :=
  { m with funcs := declareFn m.funcs n s }

/-- `llvm::Module::getOrInsertFunction`: declare if absent, and return a
handle to the (unique) function of that name. -/
def ModuleState.getOrInsertFunction (m : ModuleState) (n : String) (s : FuncSig) :
    ModuleState × String :=
  ({ m with funcs := declareFn m.funcs n s }, n)

/-- `BeginFunction` + emission + `EndFunction` on the module state: authors
one body under the given name and returns the handle. -/
def ModuleState.beginEndFunction (m : ModuleState) (n : String) (s : FuncSig) :
    ModuleState × String :=
  ({ m with funcs := addBody m.funcs n s }, n)

/-- The emitter error codes IRRuntime.cpp throws (`EmitterError`). -/
inductive EmitterError where
  | functionNotFound
  | notSupported
  deriving DecidableEq, Repr

/-- The logical value types of the emitters component (`VariableType`). -/
inductive VariableType where
  | Void
  | Byte
  | Int16
  | Int32
  | Int64
  | Float
  | Double
  | BytePointer
  | Int32Pointer
  | Int64Pointer
  | FloatPointer
  | DoublePointer
  deriving DecidableEq, Repr

/-- `IREmitter::Type`: map a logical value type to its LLVM representation. -/
def VariableType.toLLVM : VariableType → LLVMType
  | .Void => .voidT
  | .Byte => .intT 8
  | .Int16 => .intT 16
  | .Int32 => .intT 32
  | .Int64 => .intT 64
  | .Float => .floatT
  | .Double => .doubleT
  | .BytePointer => .ptr (.intT 8)
  | .Int32Pointer => .ptr (.intT 32)
  | .Int64Pointer => .ptr (.intT 64)
  | .FloatPointer => .ptr .floatT
  | .DoublePointer => .ptr .doubleT

/-- The IRRuntime provider state: the module it serves and the lazily
cached handle of the current-time function (`_pGetCurrentTimeFunction`,
null on construction). -/
structure IRRuntime where
  module : ModuleState
  pGetCurrentTimeFunction : Option String
  deriving DecidableEq, Repr

/-- `IRRuntime::GetIntType`: the target's native integer type, defaulting
to 32 bits when the descriptor's bit width is 0. -/
def IRRuntime.getIntType (rt : IRRuntime) : LLVMType :=
  if rt.module.target.numBits ≠ 0 then .intT rt.module.target.numBits else .intT 32

/-- Name constant `dotProductFloatName` from the source. -/
def dotProductFloatName : String := "DotProductFloat"

/-- Name constant `dotProductIntName` from the source. -/
def dotProductIntName : String := "DotProductInt"

/-- Name constant `getTimeFunctionName` from the source. -/
def getTimeFunctionName : String := "GetTime"

/-- `IRRuntime::GetNamespacePrefix` (returns the module name). -/
def IRRuntime.namespaceQualifier (rt : IRRuntime) : String :=
  rt.module.moduleName

/-- `IRRuntime::GetDotProductFloatFunction`: unconditionally opens the
function `<module>_DotProductFloat` with signature
`(Int32, Double*, Double*, Double*) -> Void`, emits the dot-product body,
and returns the handle. Note that, unlike the noblas getters, it performs
no presence check before emitting. -/
def IRRuntime.getDotProductFloatFunction (rt : IRRuntime) : IRRuntime × String :=
  let functionName := rt.namespaceQualifier ++ "_" ++ dotProductFloatName
  let sig : FuncSig :=
    ⟨.voidT, [.intT 32, .ptr .doubleT, .ptr .doubleT, .ptr .doubleT]⟩
  let r := rt.module.beginEndFunction functionName sig
  ({ rt with module := r.1 }, r.2)

/-- `IRRuntime::GetDotProductIntFunction`: as the float variant, for
`<module>_DotProductInt` with `Int32*` buffers. -/
def IRRuntime.getDotProductIntFunction (rt : IRRuntime) : IRRuntime × String :=
  let functionName := rt.namespaceQualifier ++ "_" ++ dotProductIntName
  let sig : FuncSig :=
    ⟨.voidT, [.intT 32, .ptr (.intT 32), .ptr (.intT 32), .ptr (.intT 32)]⟩
  let r := rt.module.beginEndFunction functionName sig
  ({ rt with module := r.1 }, r.2)

/-- `IRRuntime::GetTanhFunction`: floating types only; declares the
C-runtime symbol `tanh` (double) or `tanhf` (float) with a one-argument
signature over the requested element type and returns that declaration.
Any other type throws `EmitterException(functionNotFound)` (the failure the
spec labels `UnsupportedType`). -/
def IRRuntime.getTanhFunction (rt : IRRuntime) (argType : VariableType) :
    Except EmitterError (IRRuntime × String) :=
  match argType with
  | .Float | .Double =>
    let funcName := if argType = .Double then "tanh" else "tanhf"
    let valueType := argType.toLLVM
    let m := rt.module.declareFunction funcName ⟨valueType, [valueType]⟩
    .ok ({ rt with module := m }, funcName)
  | _ => .error .functionNotFound

/-- Modelled from the spec: `IRPosixRuntime::GetTimespecType` (the
posix-runtime collaborator, whose source is not part of this slice):
a two-field time structure (seconds, nanoseconds), both fields integers of
the width recorded in the target descriptor. -/
def IRRuntime.getTimespecType (rt : IRRuntime) : LLVMType :=
  .struct2 (.intT rt.module.target.timespecFieldBits) (.intT rt.module.target.timespecFieldBits)

/-- The signature under which `GetCurrentTimeFunction` declares the POSIX
clock-read function `clock_gettime`: `(Int32, timespec*) -> Int32`. -/
def clockGettimeDeclSig (ts : LLVMType) : FuncSig :=
  ⟨.intT 32, [.intT 32, .ptr ts]⟩

/-- Prototype declared for both `QueryPerformanceCounter` and
`QueryPerformanceFrequency` in the Windows branch of
`ResolveCurrentTimeFunction`: one argument, a pointer to a 64-bit output
location, returning Int32. -/
def qpcSig : FuncSig := ⟨.intT 32, [.ptr (.intT 64)]⟩

/-- The signature with which the Windows branch of
`ResolveCurrentTimeFunction` opens its `clock_gettime` replacement:
`(Int32, timespec*) -> Int32`. -/
def winClockGettimeSig (ts : LLVMType) : FuncSig :=
  ⟨.intT 32, [.intT 32, .ptr ts]⟩

/-- `IRRuntime::ResolveCurrentTimeFunction`: on a Windows-like target,
declare the two performance-counter externals and author a `clock_gettime`
replacement body; otherwise declare the external `clock_gettime` (with
return type equal to the first timespec field type, as in the source) and
look it up. Returns the possibly-null clock-read function handle. -/
def IRRuntime.resolveCurrentTimeFunction (rt : IRRuntime) (timespecType : LLVMType) :
    IRRuntime × Option String :=
  let tmFieldType := timespecType.elem0
  if rt.module.target.isWindows then
    let m1 := rt.module.declareFunction "QueryPerformanceCounter" qpcSig
    let m2 := m1.declareFunction "QueryPerformanceFrequency" qpcSig
    let r := m2.beginEndFunction "clock_gettime" (winClockGettimeSig timespecType)
    ({ rt with module := r.1 }, some r.2)
  else
    let m := rt.module.declareFunction "clock_gettime"
      ⟨tmFieldType, [.intT 32, .ptr timespecType]⟩
    ({ rt with module := m }, (m.getFunction "clock_gettime").map FuncDef.name)

/-- The module state after the `clock_gettime` declaration that
`GetCurrentTimeFunction` performs before resolving (source lines 325-327). -/
def IRRuntime.gettimePreState (rt : IRRuntime) : IRRuntime :=
  { rt with
    module := rt.module.declareFunction "clock_gettime" (clockGettimeDeclSig rt.getTimespecType) }

/-- `IRRuntime::GetCurrentTimeFunction`: return the cached handle if the
provider already synthesized the time function; otherwise declare
`clock_gettime`, resolve the clock-read function, and on success author the
`<module>_GetTime` body (signature `() -> Double`), cache and return its
handle; if resolution yielded no function, throw
`EmitterException(functionNotFound)` (the failure the spec labels
`FunctionResolutionError`). -/
def IRRuntime.getCurrentTimeFunction (rt : IRRuntime) :
    Except EmitterError (IRRuntime × String) :=
  match rt.pGetCurrentTimeFunction with
  | some f => .ok (rt, f)
  | none =>
    let rt1 := rt.gettimePreState
    let r := rt1.resolveCurrentTimeFunction rt.getTimespecType
    match r.2 with
    | some _ =>
      let functionName := r.1.namespaceQualifier ++ "_" ++ getTimeFunctionName
      let e := r.1.module.beginEndFunction functionName ⟨.doubleT, []⟩
      .ok ({ module := e.1, pGetCurrentTimeFunction := some e.2 }, e.2)
    | none => .error .functionNotFound

/-- Argument types of the single-precision GEMV entry points (both the
BLAS binding and the fallback), as listed in `GetSGEMVFunction`. -/
def sgemvArgTypes : List LLVMType :=
  [.intT 32, .intT 32, .intT 32, .intT 32, .floatT, .ptr .floatT, .intT 32,
   .ptr .floatT, .intT 32, .floatT, .ptr .floatT, .intT 32]

/-- Argument types of the double-precision GEMV entry points. -/
def dgemvArgTypes : List LLVMType :=
  [.intT 32, .intT 32, .intT 32, .intT 32, .doubleT, .ptr .doubleT, .intT 32,
   .ptr .doubleT, .intT 32, .doubleT, .ptr .doubleT, .intT 32]

/-- Argument types of the single-precision GEMM entry points. -/
def sgemmArgTypes : List LLVMType :=
  [.intT 32, .intT 32, .intT 32, .intT 32, .intT 32, .intT 32, .floatT,
   .ptr .floatT, .intT 32, .ptr .floatT, .intT 32, .floatT, .ptr .floatT, .intT 32]

/-- Argument types of the double-precision GEMM entry points. -/
def dgemmArgTypes : List LLVMType :=
  [.intT 32, .intT 32, .intT 32, .intT 32, .intT 32, .intT 32, .doubleT,
   .ptr .doubleT, .intT 32, .ptr .doubleT, .intT 32, .doubleT, .ptr .doubleT, .intT 32]

/-- Shared shape of the four BLAS-kernel getters: with `useBlas`,
get-or-insert the external `cblas_*` symbol; otherwise return the
`noblas_*` function if the module already has one, else author it. -/
def IRRuntime.getBlasKernel (rt : IRRuntime) (useBlas : Bool)
    (blasName noblasName : String) (argTypes : List LLVMType) : IRRuntime × String :=
  let sig : FuncSig := ⟨.intT 32, argTypes⟩
  if useBlas then
    let r := rt.module.getOrInsertFunction blasName sig
    ({ rt with module := r.1 }, r.2)
  else
    match rt.module.getFunction noblasName with
    | some f => (rt, f.name)
    | none =>
      let r := rt.module.beginEndFunction noblasName sig
      ({ rt with module := r.1 }, r.2)

/-- `IRRuntime::GetSGEMVFunction`. -/
def IRRuntime.getSGEMVFunction (rt : IRRuntime) (useBlas : Bool) : IRRuntime × String :=
  rt.getBlasKernel useBlas "cblas_sgemv" "noblas_sgemv" sgemvArgTypes

/-- `IRRuntime::GetDGEMVFunction`. -/
def IRRuntime.getDGEMVFunction (rt : IRRuntime) (useBlas : Bool) : IRRuntime × String :=
  rt.getBlasKernel useBlas "cblas_dgemv" "noblas_dgemv" dgemvArgTypes

/-- `IRRuntime::GetSGEMMFunction`. -/
def IRRuntime.getSGEMMFunction (rt : IRRuntime) (useBlas : Bool) : IRRuntime × String :=
  rt.getBlasKernel useBlas "cblas_sgemm" "noblas_sgemm" sgemmArgTypes

/-- `IRRuntime::GetDGEMMFunction`. -/
def IRRuntime.getDGEMMFunction (rt : IRRuntime) (useBlas : Bool) : IRRuntime × String :=
  rt.getBlasKernel useBlas "cblas_dgemm" "noblas_dgemm" dgemmArgTypes

/-- `IRRuntime::GetOpenBLASGetNumThreadsFunction`: get-or-insert
`openblas_get_num_threads` with signature `() -> GetIntType()`. -/
def IRRuntime.getOpenBLASGetNumThreadsFunction (rt : IRRuntime) : IRRuntime × String :=
  let r := rt.module.getOrInsertFunction "openblas_get_num_threads" ⟨rt.getIntType, []⟩
  ({ rt with module := r.1 }, r.2)

/-- `IRRuntime::GetOpenBLASSetNumThreadsFunction`: get-or-insert
`openblas_set_num_threads` with signature `(GetIntType()) -> void`. -/
def IRRuntime.getOpenBLASSetNumThreadsFunction (rt : IRRuntime) : IRRuntime × String :=
  let r := rt.module.getOrInsertFunction "openblas_set_num_threads" ⟨.voidT, [rt.getIntType]⟩
  ({ rt with module := r.1 }, r.2)

/-!
Run-time semantics of the synthesized kernels.

`IRFunctionEmitter::For(n, body)` runs `body 0, body 1, ..., body (n-1)` in
ascending order; `foldRange` is that loop as a fold over an explicit state.
Buffers are total maps from (pointer-offset) integers to values; element
values are modelled exactly as rationals.
-/

/-- Ascending counted loop: applies `f 0`, then `f 1`, ..., then `f (n-1)`
to the state. This is the semantics of the emitter's `For` construct. -/
def foldRange {σ : Type*} (f : ℕ → σ → σ) : ℕ → σ → σ
  | 0, s => s
  | n + 1, s => f n (foldRange f n s)

/-- The branchless conditional move emitted by `IRFunctionEmitter::Select`. -/
def selectCmov {α : Type*} (c : Bool) (a b : α) : α :=
  if c then a else b

/-- The value `CblasTrans` against which the transpose arguments of the
GEMM fallback are compared. -/
def CblasTrans : ℤ := 112

/-- Run-time semantics of the body emitted by `EmitGEMVFunction`
(the `noblas_sgemv` / `noblas_dgemv` fallback): for each row index, zero
the accumulator variable, accumulate `A[i*lda + j] * x[j*incx]` over the
columns, store the accumulator to `y[i*incy]`, and finally return the
literal 0. The `order`, `transpose`, `alpha`, `beta` arguments are read
from the argument list but marked `UNUSED` in the source. -/
def emitGEMVSemantics (order transpose : ℤ) (m n : ℕ) (alpha : ℚ)
    (A : ℤ → ℚ) (lda : ℤ) (x : ℤ → ℚ) (incx : ℤ) (beta : ℚ)
    (y : ℤ → ℚ) (incy : ℤ) : (ℤ → ℚ) × ℤ :=
  let yFinal := foldRange (fun rowIndex yCur =>
    let accumFinal := foldRange (fun columnIndex accum =>
      let aIndex := (rowIndex : ℤ) * lda + columnIndex
      let xIndex := (columnIndex : ℤ) * incx
      accum + A aIndex * x xIndex) n 0
    let yIndex := (rowIndex : ℤ) * incy
    fun idx => if idx = yIndex then accumFinal else yCur idx) m y
  (yFinal, 0)

/-- Run-time semantics of the body emitted by `EmitGEMMFunction`
(the `noblas_sgemm` / `noblas_dgemm` fallback): decode the transpose flags
by comparison with `CblasTrans`, zero the first `ldc*m` elements of `C`
(`MemorySet`), then run the `i` / `k` / `j` loop nest accumulating
`A[aOffset]*B[bOffset]` into `C[i*ldc+j]` with the offsets chosen by
branchless select, and return the literal 0. `order`, `alpha`, `beta` are
read but marked `UNUSED` in the source. -/
def emitGEMMSemantics (order transA transB : ℤ) (m n kDim : ℕ) (alpha : ℚ)
    (A : ℤ → ℚ) (lda : ℤ) (B : ℤ → ℚ) (ldb : ℤ) (beta : ℚ)
    (C : ℤ → ℚ) (ldc : ℤ) : (ℤ → ℚ) × ℤ :=
  let transposeA := decide (transA = CblasTrans)
  let transposeB := decide (transB = CblasTrans)
  let count := ldc * (m : ℤ)
  let C0 : ℤ → ℚ := fun idx => if 0 ≤ idx ∧ idx < count then 0 else C idx
  let CFinal := foldRange (fun i Ci =>
    foldRange (fun k Ck =>
      foldRange (fun j Cj =>
        let aOffset := selectCmov transposeA ((k : ℤ) * lda + i) ((i : ℤ) * lda + k)
        let bOffset := selectCmov transposeB ((j : ℤ) * ldb + k) ((k : ℤ) * ldb + j)
        let cOffset := (i : ℤ) * ldc + j
        fun idx => if idx = cOffset then Cj cOffset + A aOffset * B bOffset else Cj idx)
        n Ck)
      kDim Ci)
    m C0
  (CFinal, 0)

/-- Worded from the spec: the value the GEMV fallback is described to store
for row `i` — an accumulator over columns `j` in `[0,n)` of
`A[i*lda + j] * x[j*incx]`, starting from zero. -/
def gemvRowValue (n : ℕ) (A : ℤ → ℚ) (lda : ℤ) (x : ℤ → ℚ) (incx : ℤ) (i : ℤ) : ℚ :=
  ∑ j ∈ Finset.range n, A (i * lda + j) * x ((j : ℤ) * incx)

/-- Worded from the spec: the GEMV fallback's described output buffer —
for each row index `i` in `[0,m)` in order, store the row accumulator to
`y[i*incy]`; no transpose and no alpha/beta scaling appear. -/
def gemvDescribed (m n : ℕ) (A : ℤ → ℚ) (lda : ℤ) (x : ℤ → ℚ) (incx : ℤ)
    (y : ℤ → ℚ) (incy : ℤ) : ℤ → ℚ :=
  (List.range m).foldl (fun yCur (i : ℕ) =>
    Function.update yCur ((i : ℤ) * incy) (gemvRowValue n A lda x incx (i : ℤ))) y

/-- Worded from the spec: the GEMM fallback's described output buffer —
first all `m*ldc` elements of `C` are zeroed, then for `i in [0,m)`,
`k in [0,k_dim)`, `j in [0,n)` in that nesting order, `A[aOffset]*B[bOffset]`
is accumulated into `C[i*ldc+j]`, with `aOffset = transposeA ? k*lda+i :
i*lda+k` and `bOffset = transposeB ? j*ldb+k : k*ldb+j` selected per
element. -/
def gemmDescribed (transposeA transposeB : Bool) (m n kDim : ℕ)
    (A : ℤ → ℚ) (lda : ℤ) (B : ℤ → ℚ) (ldb : ℤ) (C : ℤ → ℚ) (ldc : ℤ) : ℤ → ℚ :=
  let zeroed : ℤ → ℚ := fun idx => if 0 ≤ idx ∧ idx < ldc * (m : ℤ) then 0 else C idx
  (List.range m).foldl (fun Ci (i : ℕ) =>
    (List.range kDim).foldl (fun Ck (k : ℕ) =>
      (List.range n).foldl (fun Cj (j : ℕ) =>
        let aOffset := if transposeA then (k : ℤ) * lda + i else (i : ℤ) * lda + k
        let bOffset := if transposeB then (j : ℤ) * ldb + k else (k : ℤ) * ldb + j
        let cOffset := (i : ℤ) * ldc + j
        Function.update Cj cOffset (Cj cOffset + A aOffset * B bOffset))
        Ck) Ci) zeroed

/-!
Run-time semantics of the synthesized timing functions. The caller-supplied
`timespec` structure is modelled as a map from member index to integer
value: member 0 is `tv_sec`, member 1 is `tv_nsec`. Floating-point doubles
are idealized as rationals; float-to-int casts truncate toward zero.
-/

/-- Truncation toward zero, the semantics of `CastFloatToInt` (`fptosi`). -/
def truncToZero (q : ℚ) : ℤ :=
  if 0 ≤ q then ⌊q⌋ else -⌊-q⌋

/-- The realtime-clock id `CLOCK_REALTIME` passed to the clock-read
function. -/
def CLOCK_REALTIME : ℤ := 0

/-- Run-time semantics of the `clock_gettime` replacement body authored by
the Windows branch of `ResolveCurrentTimeFunction`, given the 64-bit values
produced by the `QueryPerformanceCounter` / `QueryPerformanceFrequency`
calls and the caller-supplied structure: compute `seconds = counter/freq`
in double, truncate to whole seconds, scale the remainder by 10000000 into
the sub-second member (index 1), store the whole seconds into member 0, and
return 0. -/
def winClockGettimeBody (counter freq : ℤ) (tp : ℕ → ℤ) : (ℕ → ℤ) × ℤ :=
  let timeDouble : ℚ := (counter : ℚ)
  let freqDouble : ℚ := (freq : ℚ)
  let seconds : ℚ := timeDouble / freqDouble
  let intSeconds : ℤ := truncToZero seconds
  let floatSeconds : ℚ := (intSeconds : ℚ)
  let remainder : ℚ := seconds - floatSeconds
  let nanoseconds : ℚ := remainder * 10000000
  let tvNsec : ℤ := truncToZero nanoseconds
  let tp1 : ℕ → ℤ := fun i => if i = 1 then tvNsec else tp i
  let tvSec : ℤ := truncToZero floatSeconds
  let tp2 : ℕ → ℤ := fun i => if i = 0 then tvSec else tp1 i
  (tp2, 0)

/-- Run-time semantics of the `<module>_GetTime` body authored by
`GetCurrentTimeFunction`, given the semantics of the resolved clock-read
function and the (arbitrary) initial contents of the stack-allocated
`timespec`: call the clock-read function with `CLOCK_REALTIME`, load the
seconds member (index 0) and the nanoseconds member (index 1), convert both
to double, and return `(seconds + nanoseconds / 1e9) * 1000`. -/
def getTimeBody (clockRead : ℤ → (ℕ → ℤ) → (ℕ → ℤ) × ℤ) (tpInit : ℕ → ℤ) : ℚ :=
  let callResult := clockRead CLOCK_REALTIME tpInit
  let tp := callResult.1
  let secondsIntVal : ℤ := tp 0
  let nanosecondsIntVal : ℤ := tp 1
  let secondsDoubleVal : ℚ := (secondsIntVal : ℚ)
  let nanosecondsDoubleVal : ℚ := (nanosecondsIntVal : ℚ)
  let divisor : ℚ := 1000000000
  let totalSecondsDoubleVal : ℚ := secondsDoubleVal + nanosecondsDoubleVal / divisor
  totalSecondsDoubleVal * 1000

/-! Helper lemmas about the module symbol-table operations. -/

theorem lookupFn_cons (fd : FuncDef) (l : List FuncDef) (n : String) :
    lookupFn (fd :: l) n = if fd.name = n then some fd else lookupFn l n := by
  unfold lookupFn
  by_cases h : fd.name = n
  · rw [List.find?_cons_of_pos _ (by simp [h]), if_pos h]
  · rw [List.find?_cons_of_neg _ (by simp [h]), if_neg h]

theorem lookupFn_name {l : List FuncDef} {n : String} {fd : FuncDef}
    (h : lookupFn l n = some fd) : fd.name = n := by
  unfold lookupFn at h
  have := List.find?_some h
  simpa using this

theorem declareFn_of_some {l : List FuncDef} {n : String} (s : FuncSig) {fd : FuncDef}
    (h : lookupFn l n = some fd) : declareFn l n s = l := by
  induction l with
  | nil => simp [lookupFn] at h
  | cons a l ih =>
    rw [lookupFn_cons] at h
    unfold declareFn
    by_cases ha : a.name = n
    · rw [if_pos ha]
    · rw [if_neg ha] at h
      rw [if_neg ha, ih h]

theorem lookupFn_declareFn_self (l : List FuncDef) (n : String) (s : FuncSig) :
    lookupFn (declareFn l n s) n = some ((lookupFn l n).getD ⟨n, s, 0⟩) := by
  induction l with
  | nil => simp [declareFn, lookupFn_cons, lookupFn]
  | cons a l ih =>
    unfold declareFn
    by_cases ha : a.name = n
    · rw [if_pos ha, lookupFn_cons, if_pos ha]
      rfl
    · rw [if_neg ha, lookupFn_cons, if_neg ha, ih, lookupFn_cons, if_neg ha]

theorem lookupFn_declareFn_ne (l : List FuncDef) (n : String) (s : FuncSig) (m : String)
    (h : m ≠ n) : lookupFn (declareFn l n s) m = lookupFn l m := by
  induction l with
  | nil =>
    show lookupFn [⟨n, s, 0⟩] m = lookupFn [] m
    rw [lookupFn_cons]
    exact if_neg (fun hn => h (hn.symm))
  | cons a l ih =>
    unfold declareFn
    by_cases ha : a.name = n
    · rw [if_pos ha]
    · rw [if_neg ha, lookupFn_cons, lookupFn_cons, ih]

theorem lookupFn_addBody_none {l : List FuncDef} {n : String} (s : FuncSig)
    (h : lookupFn l n = none) : lookupFn (addBody l n s) n = some ⟨n, s, 1⟩ := by
  induction l with
  | nil => simp [addBody, lookupFn_cons]
  | cons a l ih =>
    rw [lookupFn_cons] at h
    unfold addBody
    by_cases ha : a.name = n
    · rw [if_pos ha] at h
      exact absurd h (by simp)
    · rw [if_neg ha] at h
      rw [if_neg ha, lookupFn_cons, if_neg ha, ih h]

theorem lookupFn_addBody_some {l : List FuncDef} {n : String} (s : FuncSig) {fd : FuncDef}
    (h : lookupFn l n = some fd) :
    lookupFn (addBody l n s) n = some { fd with bodies := fd.bodies + 1 } := by
  induction l with
  | nil => simp [lookupFn] at h
  | cons a l ih =>
    rw [lookupFn_cons] at h
    unfold addBody
    by_cases ha : a.name = n
    · rw [if_pos ha] at h
      rw [if_pos ha, lookupFn_cons]
      simp only [Option.some.injEq] at h
      subst h
      rw [if_pos ha]
    · rw [if_neg ha] at h
      rw [if_neg ha, lookupFn_cons, if_neg ha, ih h]

theorem lookupFn_addBody_ne (l : List FuncDef) (n : String) (s : FuncSig) (m : String)
    (h : m ≠ n) : lookupFn (addBody l n s) m = lookupFn l m := by
  induction l with
  | nil =>
    show lookupFn [⟨n, s, 1⟩] m = lookupFn [] m
    rw [lookupFn_cons]
    exact if_neg (fun hn => h (hn.symm))
  | cons a l ih =>
    unfold addBody
    by_cases ha : a.name = n
    · have hnm : ¬ a.name = m := fun hm => h ((ha.symm.trans hm).symm)
      rw [if_pos ha, lookupFn_cons, lookupFn_cons,
        if_neg (show ¬ ({ a with bodies := a.bodies + 1 } : FuncDef).name = m from hnm),
        if_neg hnm]
    · rw [if_neg ha, lookupFn_cons, lookupFn_cons, ih]

theorem lookupFn_addBody_self_ne_none (l : List FuncDef) (n : String) (s : FuncSig) :
    lookupFn (addBody l n s) n ≠ none := by
  cases h : lookupFn l n with
  | none => rw [lookupFn_addBody_none s h]; simp
  | some fd => rw [lookupFn_addBody_some s h]; simp

/-! Helper lemmas about string names: appending a module namespace to a
public operation name can never collide with the fixed external symbols. -/

theorem append_ne_of_rev_getElem {s t : String} (i : ℕ) (hi : i < s.data.length)
    (hne : s.data.reverse[i]? ≠ t.data.reverse[i]?) (p : String) : p ++ s ≠ t := by
  intro h
  apply hne
  have hd : p.data ++ s.data = t.data := by
    have h2 := congrArg String.data h
    rw [String.data_append] at h2
    exact h2
  have hrev : t.data.reverse = s.data.reverse ++ p.data.reverse := by
    rw [← hd, List.reverse_append]
  rw [hrev, List.getElem?_append_left (by simpa using hi)]

theorem getTime_ne_clock (p : String) : p ++ "GetTime" ≠ "clock_gettime" :=
  append_ne_of_rev_getElem 3 (by decide) (by decide) p

theorem getTime_ne_qpc (p : String) : p ++ "GetTime" ≠ "QueryPerformanceCounter" :=
  append_ne_of_rev_getElem 0 (by decide) (by decide) p

theorem getTime_ne_qpf (p : String) : p ++ "GetTime" ≠ "QueryPerformanceFrequency" :=
  append_ne_of_rev_getElem 0 (by decide) (by decide) p

/-! Helper lemmas about loop semantics. -/

theorem foldRange_eq_foldl {σ : Type*} (f : ℕ → σ → σ) (n : ℕ) (s : σ) :
    foldRange f n s = (List.range n).foldl (fun t i => f i t) s := by
  induction n with
  | zero => rfl
  | succ n ih => rw [foldRange, ih, List.range_succ, List.foldl_append]; rfl

theorem foldl_congr_fun {σ α : Type*} (l : List α) (F G : σ → α → σ) (s : σ)
    (h : ∀ t a, F t a = G t a) : l.foldl F s = l.foldl G s := by
  have hFG : F = G := funext fun t => funext fun a => h t a
  rw [hFG]

theorem gemvAccum (A : ℤ → ℚ) (lda : ℤ) (x : ℤ → ℚ) (incx : ℤ) (i : ℤ) (n : ℕ) :
    foldRange (fun columnIndex accum =>
        accum + A (i * lda + columnIndex) * x ((columnIndex : ℤ) * incx)) n 0
      = gemvRowValue n A lda x incx i := by
  induction n with
  | zero => simp [foldRange, gemvRowValue]
  | succ n ih =>
    rw [foldRange, ih]
    unfold gemvRowValue
    rw [Finset.sum_range_succ]

/-- C3: the GEMV fallback kernel synthesized by `EmitGEMVFunction`, for every
input with m, n ≥ 0, computes for each row index i in [0,m) an accumulator
initialized to zero, accumulating `A[i*lda + j] * x[j*incx]` over each column
index j in [0,n), then stores the accumulator to `y[i*incy]`; the result does
not depend on the `order`, `transpose`, `alpha`, `beta` arguments (they are
absent from the right-hand side), so it is always the untransposed, unscaled
product A·x, and the returned integer status is zero unconditionally. -/
theorem gemv_fallback_semantics (order transpose : ℤ) (m n : ℕ) (alpha : ℚ)
    (A : ℤ → ℚ) (lda : ℤ) (x : ℤ → ℚ) (incx : ℤ) (beta : ℚ) (y : ℤ → ℚ) (incy : ℤ) :
    emitGEMVSemantics order transpose m n alpha A lda x incx beta y incy
      = (gemvDescribed m n A lda x incx y incy, 0) := by
  simp only [emitGEMVSemantics, gemvDescribed]
  congr 1
  rw [foldRange_eq_foldl]
  apply foldl_congr_fun
  intro yCur i
  funext idx
  rw [Function.update_apply, ← gemvAccum]

/-- C2: the GEMM fallback kernel synthesized by `EmitGEMMFunction`, for every
input with m, n, k ≥ 0, first zeroes all `m*ldc` elements of the output
buffer C, then for i in [0,m), k in [0,k_dim), j in [0,n) — in that loop
nesting order — accumulates `A[aOffset]*B[bOffset]` into `C[i*ldc+j]`, where
`aOffset = transposeA ? k*lda+i : i*lda+k` and
`bOffset = transposeB ? j*ldb+k : k*ldb+j` are selected per element (by the
branchless `Select`, here `selectCmov`), with the transpose flags decoded by
comparison with `CblasTrans`; the result does not depend on `order`, `alpha`,
`beta`, and the returned integer status is zero unconditionally. -/
theorem gemm_fallback_semantics (order transA transB : ℤ) (m n kDim : ℕ) (alpha : ℚ)
    (A : ℤ → ℚ) (lda : ℤ) (B : ℤ → ℚ) (ldb : ℤ) (beta : ℚ) (C : ℤ → ℚ) (ldc : ℤ) :
    emitGEMMSemantics order transA transB m n kDim alpha A lda B ldb beta C ldc
      = (gemmDescribed (decide (transA = CblasTrans)) (decide (transB = CblasTrans))
          m n kDim A lda B ldb C ldc, 0) := by
  simp only [emitGEMMSemantics, gemmDescribed, selectCmov]
  congr 1
  rw [foldRange_eq_foldl]
  apply foldl_congr_fun
  intro Ci i
  rw [foldRange_eq_foldl]
  apply foldl_congr_fun
  intro Ck k
  rw [foldRange_eq_foldl]
  apply foldl_congr_fun
  intro Cj j
  funext idx
  rw [Function.update_apply]

theorem truncToZero_intCast (n : ℤ) : truncToZero ((n : ℚ)) = n := by
  unfold truncToZero
  by_cases h : (0 : ℚ) ≤ (n : ℚ)
  · rw [if_pos h, Int.floor_intCast]
  · rw [if_neg h, ← Int.cast_neg, Int.floor_intCast, neg_neg]

/-- A fresh, non-Windows runtime instance over an empty module named `m`
with default (0) integer width and 32-bit timespec fields. -/
def rt0 : IRRuntime :=
  { module :=
      { moduleName := "m"
        target := { numBits := 0, isWindows := false, timespecFieldBits := 32 }
        funcs := [] }
    pGetCurrentTimeFunction := none }

/-- A fresh runtime instance over an empty module for a Windows-like
32-bit target. -/
def rtWin : IRRuntime :=
  { module :=
      { moduleName := "m"
        target := { numBits := 32, isWindows := true, timespecFieldBits := 32 }
        funcs := [] }
    pGetCurrentTimeFunction := none }

/-- A fresh runtime instance over an empty module for a 64-bit target
(descriptor integer width 64). -/
def rt64 : IRRuntime :=
  { module :=
      { moduleName := "m"
        target := { numBits := 64, isWindows := false, timespecFieldBits := 64 }
        funcs := [] }
    pGetCurrentTimeFunction := none }

/-- C5: the function synthesized by `GetCurrentTimeFunction` allocates a
stack-local time structure (modelled by the arbitrary initial contents
`tpInit`), calls the resolved clock-read function with the realtime-clock
id `CLOCK_REALTIME = 0`, loads the seconds member (index 0) and the
nanoseconds member (index 1) of the structure the call filled in, converts
both to floating point, and returns `(seconds + nanoseconds / 1e9) * 1000`
— the current time scaled to milliseconds. -/
theorem getTime_body_semantics (clockRead : ℤ → (ℕ → ℤ) → (ℕ → ℤ) × ℤ)
    (tpInit : ℕ → ℤ) :
    CLOCK_REALTIME = 0 ∧
    getTimeBody clockRead tpInit =
      ((((clockRead CLOCK_REALTIME tpInit).1 0 : ℚ) +
        ((clockRead CLOCK_REALTIME tpInit).1 1 : ℚ) / 1000000000) * 1000) :=
  ⟨rfl, rfl⟩

/-- The properties the Windows timing branch actually has (C6 amended):
the performance-counter externals are declared with a single pointer-to-
64-bit argument and called with that one argument; the authored
`clock_gettime` replacement carries the same signature as the POSIX
clock-read declaration made by `GetCurrentTimeFunction`; on a Windows-like
target `ResolveCurrentTimeFunction` declares both externals and returns the
`clock_gettime` replacement; and the replacement body computes
`seconds = counter/frequency`, truncates toward zero to whole seconds,
scales the fractional remainder by 10,000,000 into the structure's second
member, stores whole seconds into the first member, and returns zero. -/
def WinClockOutcome (rt : IRRuntime) (ts : LLVMType) : Prop :=
  (qpcSig.args.length = 1 ∧ qpcSig.args = [.ptr (.intT 64)]) ∧
  (winClockGettimeSig ts = clockGettimeDeclSig ts) ∧
  (((rt.resolveCurrentTimeFunction ts).1.module.getFunction
      "QueryPerformanceCounter").map FuncDef.sig = some qpcSig ∧
   ((rt.resolveCurrentTimeFunction ts).1.module.getFunction
      "QueryPerformanceFrequency").map FuncDef.sig = some qpcSig ∧
   (rt.resolveCurrentTimeFunction ts).2 = some "clock_gettime") ∧
  (∀ (counter freq : ℤ) (tp : ℕ → ℤ),
    winClockGettimeBody counter freq tp =
      (fun i =>
        if i = 0 then truncToZero ((counter : ℚ) / (freq : ℚ))
        else if i = 1 then
          truncToZero ((((counter : ℚ) / (freq : ℚ)) -
            ((truncToZero ((counter : ℚ) / (freq : ℚ)) : ℤ) : ℚ)) * 10000000)
        else tp i,
        0))

/-- C6 counterexample: the claim says the performance counter and frequency
are read "via two-argument external calls", but the prototype declared for
`QueryPerformanceCounter` (and `QueryPerformanceFrequency`) in the Windows
branch of `ResolveCurrentTimeFunction` has exactly ONE argument (a pointer
to a 64-bit output location), and the call passes that single argument. -/
theorem qpc_one_argument :
    (((rtWin.resolveCurrentTimeFunction rtWin.getTimespecType).1.module.getFunction
        "QueryPerformanceCounter").map (fun fd => fd.sig.args.length) = some 1) ∧
    ¬ (((rtWin.resolveCurrentTimeFunction rtWin.getTimespecType).1.module.getFunction
        "QueryPerformanceCounter").map (fun fd => fd.sig.args.length) = some 2) := by
  constructor
  · rfl
  · decide

/-- C6 (amended): on a Windows-like target whose module does not yet
declare the performance-counter symbols, `ResolveCurrentTimeFunction`
authors a `clock_gettime` replacement with the same signature as the POSIX
clock-read declaration, reading counter and frequency via ONE-argument
external calls into 64-bit output locations, computing
`seconds = counter/frequency`, truncating to whole seconds, scaling the
fractional remainder by 10,000,000 into the structure's second member,
storing whole seconds into the first member, and returning zero. -/
theorem win_clock_gettime_semantics (rt : IRRuntime) (ts : LLVMType)
    (hw : rt.module.target.isWindows = true)
    (hq : rt.module.getFunction "QueryPerformanceCounter" = none)
    (hf : rt.module.getFunction "QueryPerformanceFrequency" = none) :
    WinClockOutcome rt ts := by
  refine ⟨⟨rfl, rfl⟩, rfl, ?_, ?_⟩
  · unfold IRRuntime.resolveCurrentTimeFunction
    rw [if_pos hw]
    unfold ModuleState.getFunction ModuleState.declareFunction ModuleState.beginEndFunction at *
    refine ⟨?_, ?_, rfl⟩
    · rw [lookupFn_addBody_ne _ _ _ _ (by decide), lookupFn_declareFn_ne _ _ _ _ (by decide),
        lookupFn_declareFn_self, hq]
      rfl
    · rw [lookupFn_addBody_ne _ _ _ _ (by decide), lookupFn_declareFn_self,
        lookupFn_declareFn_ne _ _ _ _ (by decide), hf]
      rfl
  · intro counter freq tp
    unfold winClockGettimeBody
    refine congrArg (fun z => (z, (0 : ℤ))) ?_
    funext i
    by_cases h0 : i = 0
    · rw [if_pos h0, if_pos h0, truncToZero_intCast]
    · rw [if_neg h0, if_neg h0]

/-- C6 witness: the amended theorem applied to the concrete fresh
Windows-target runtime. -/
theorem win_clock_gettime_semantics_inst : WinClockOutcome rtWin rtWin.getTimespecType :=
  win_clock_gettime_semantics rtWin rtWin.getTimespecType rfl rfl rfl

/-- C10: for every target descriptor (Windows-like or not) and every
timespec type, `ResolveCurrentTimeFunction` returns a non-null function
handle — the Windows branch always authors the replacement and the
non-Windows branch always declares and finds the external `clock_gettime`
— and consequently `GetCurrentTimeFunction` never takes the null-check
error branch: it never returns an error, for any provider state. -/
theorem resolveCurrentTime_total :
    (∀ (rt : IRRuntime) (ts : LLVMType), (rt.resolveCurrentTimeFunction ts).2 ≠ none) ∧
    (∀ (rt : IRRuntime) (e : EmitterError), rt.getCurrentTimeFunction ≠ .error e) := by
  have hres : ∀ (rt : IRRuntime) (ts : LLVMType),
      (rt.resolveCurrentTimeFunction ts).2 ≠ none := by
    intro rt ts
    unfold IRRuntime.resolveCurrentTimeFunction
    by_cases hw : rt.module.target.isWindows = true
    · rw [if_pos hw]
      simp
    · rw [if_neg hw]
      simp only [ModuleState.getFunction, ModuleState.declareFunction]
      rw [lookupFn_declareFn_self]
      simp
  refine ⟨hres, ?_⟩
  intro rt e
  cases hc : rt.pGetCurrentTimeFunction with
  | some f => simp [IRRuntime.getCurrentTimeFunction, hc]
  | none =>
    simp only [IRRuntime.getCurrentTimeFunction, hc]
    cases hr : (rt.gettimePreState.resolveCurrentTimeFunction rt.getTimespecType).2 with
    | none => exact absurd hr (hres _ _)
    | some g => simp [hr]

/-- Returning the fallback kernel always yields the fixed `noblas_*` symbol
name, whether the function was just authored or found already present. -/
theorem getBlasKernel_noblas_name (rt : IRRuntime) (bn nn : String) (ats : List LLVMType) :
    (rt.getBlasKernel false bn nn ats).2 = nn := by
  unfold IRRuntime.getBlasKernel
  cases h : rt.module.getFunction nn with
  | none => simp [h, ModuleState.beginEndFunction]
  | some fd =>
    have hn : fd.name = nn := lookupFn_name (h : lookupFn rt.module.funcs nn = some fd)
    simp [h, hn]

/-- C8: the fallback kernel symbol names produced by
`GetSGEMVFunction(false)`, `GetDGEMVFunction(false)`, `GetSGEMMFunction(false)`
and `GetDGEMMFunction(false)` are exactly `noblas_sgemv`, `noblas_dgemv`,
`noblas_sgemm` and `noblas_dgemm`; since the provider state `rt` is
universally quantified, this holds after any number and order of prior
requests. -/
theorem noblas_symbol_names (rt : IRRuntime) :
    (rt.getSGEMVFunction false).2 = "noblas_sgemv" ∧
    (rt.getDGEMVFunction false).2 = "noblas_dgemv" ∧
    (rt.getSGEMMFunction false).2 = "noblas_sgemm" ∧
    (rt.getDGEMMFunction false).2 = "noblas_dgemm" :=
  ⟨getBlasKernel_noblas_name rt _ _ _, getBlasKernel_noblas_name rt _ _ _,
   getBlasKernel_noblas_name rt _ _ _, getBlasKernel_noblas_name rt _ _ _⟩

/-- The failure behaviour of `GetCurrentTimeFunction` on a provider whose
cache is still empty: it returns the `functionNotFound` error (the spec's
`FunctionResolutionError`) exactly when `ResolveCurrentTimeFunction`
yielded no function; an error is the only non-ok outcome (the function
throws rather than degrading); and on success the returned handle names a
function that exists in the module. -/
def CurrentTimeFailureOutcome (rt : IRRuntime) : Prop :=
  (rt.getCurrentTimeFunction = .error .functionNotFound ↔
    (rt.gettimePreState.resolveCurrentTimeFunction rt.getTimespecType).2 = none) ∧
  (∀ e, rt.getCurrentTimeFunction = .error e → e = .functionNotFound) ∧
  (∀ rt' f, rt.getCurrentTimeFunction = .ok (rt', f) → rt'.module.getFunction f ≠ none)

/-- C7: `GetCurrentTimeFunction` (called on a provider that has not yet
cached the time function) fails with `FunctionResolutionError` if and only
if `ResolveCurrentTimeFunction` yields no function; on failure it aborts by
throwing that error (there is no silent degradation), and on success it
returns a handle to a function present in the module. -/
theorem getCurrentTime_failure_condition (rt : IRRuntime)
    (h : rt.pGetCurrentTimeFunction = none) : CurrentTimeFailureOutcome rt := by
  unfold CurrentTimeFailureOutcome
  simp only [IRRuntime.getCurrentTimeFunction, h]
  cases hr : (rt.gettimePreState.resolveCurrentTimeFunction rt.getTimespecType).2 with
  | none =>
    simp only [hr]
    refine ⟨by simp, ?_, ?_⟩
    · intro e he
      exact (Except.error.inj he).symm
    · intro rt' f hok
      exact Except.noConfusion hok
  | some g =>
    simp only [hr]
    refine ⟨by simp, by simp, ?_⟩
    intro rt' f hok
    injection hok with hok'
    injection hok' with hrt hf
    subst hrt
    subst hf
    simp only [ModuleState.getFunction, ModuleState.beginEndFunction]
    exact lookupFn_addBody_self_ne_none _ _ _

/-- C7 witness: the failure-condition theorem applied to the concrete
fresh runtime `rt0` (whose cache is empty). -/
theorem getCurrentTime_failure_condition_inst : CurrentTimeFailureOutcome rt0 :=
  getCurrentTime_failure_condition rt0 rfl

/-- The resolution behaviour of `GetTanhFunction` for a requested element
type `t`: it throws exactly when `t` is neither Float nor Double (the
thrown code is `functionNotFound`, which the spec's taxonomy labels
`UnsupportedType`); on success the returned handle is `tanh` for Double
and `tanhf` for Float, declared with a one-argument signature whose
argument and return type both equal the requested element type. -/
def TanhOutcome (rt : IRRuntime) (t : VariableType) : Prop :=
  ((∃ e, rt.getTanhFunction t = .error e) ↔ (t ≠ .Float ∧ t ≠ .Double)) ∧
  (∀ e, rt.getTanhFunction t = .error e → e = .functionNotFound) ∧
  (∀ rt' f, rt.getTanhFunction t = .ok (rt', f) →
    f = (if t = .Double then "tanh" else "tanhf") ∧
    rt'.module.getFunction f = some ⟨f, ⟨t.toLLVM, [t.toLLVM]⟩, 0⟩)

/-- C4: `GetTanhFunction(type)` fails (with the error the spec labels
`UnsupportedType`) exactly when `type` is neither Float32 nor Float64; for
Float64 it declares the external C-runtime symbol `tanh` and for Float32
the symbol `tanhf`, each with a one-argument signature whose argument type
and return type both equal the requested element type, and returns the
declared function. (The module is assumed not to contain a colliding
predeclaration of `tanh`/`tanhf`, the spec's stated precondition.) -/
theorem tanh_resolution (rt : IRRuntime) (t : VariableType)
    (h1 : rt.module.getFunction "tanh" = none)
    (h2 : rt.module.getFunction "tanhf" = none) : TanhOutcome rt t := by
  simp only [ModuleState.getFunction] at h1 h2
  have hFloat : TanhOutcome rt .Float := by
    refine ⟨?_, ?_, ?_⟩
    · constructor
      · rintro ⟨e, he⟩
        exact Except.noConfusion he
      · rintro ⟨hf, _⟩
        exact absurd rfl hf
    · intro e he
      exact Except.noConfusion he
    · intro rt' f hok
      injection hok with hok'
      injection hok' with hrt hf
      subst hrt
      subst hf
      refine ⟨rfl, ?_⟩
      simp only [ModuleState.getFunction, ModuleState.declareFunction]
      simp [lookupFn_declareFn_self, h2]
  have hDouble : TanhOutcome rt .Double := by
    refine ⟨?_, ?_, ?_⟩
    · constructor
      · rintro ⟨e, he⟩
        exact Except.noConfusion he
      · rintro ⟨_, hd⟩
        exact absurd rfl hd
    · intro e he
      exact Except.noConfusion he
    · intro rt' f hok
      injection hok with hok'
      injection hok' with hrt hf
      subst hrt
      subst hf
      refine ⟨rfl, ?_⟩
      simp only [ModuleState.getFunction, ModuleState.declareFunction]
      simp [lookupFn_declareFn_self, h1]
  cases t
  case Float => exact hFloat
  case Double => exact hDouble
  all_goals
    exact ⟨⟨fun _ => ⟨by decide, by decide⟩, fun _ => ⟨.functionNotFound, rfl⟩⟩,
      fun e he => (Except.error.inj he).symm,
      fun rt' f hok => Except.noConfusion hok⟩

/-- C4 witness: the tanh-resolution theorem applied at the fresh runtime
`rt0` and the Float element type. -/
theorem tanh_resolution_inst : TanhOutcome rt0 .Float :=
  tanh_resolution rt0 .Float rfl rfl

/-- C9 counterexample: on a target descriptor with integer width 64, the
declared signature of `openblas_get_num_threads` is `() -> Int64`, not the
claimed `() -> Int32` — the getters use `GetIntType()` rather than a fixed
32-bit integer. -/
theorem openblas_get_sig_not_int32 :
    (((rt64.getOpenBLASGetNumThreadsFunction).1.module.getFunction
        "openblas_get_num_threads").map FuncDef.sig = some ⟨.intT 64, []⟩) ∧
    ¬ (((rt64.getOpenBLASGetNumThreadsFunction).1.module.getFunction
        "openblas_get_num_threads").map FuncDef.sig = some ⟨.intT 32, []⟩) := by
  refine ⟨rfl, ?_⟩
  intro h
  exact absurd h (by decide)

/-- The declarations the OpenBLAS thread getters actually make (C9
amended): `openblas_get_num_threads` with signature `() -> GetIntType()`
and `openblas_set_num_threads` with signature `(GetIntType()) -> void`,
where `GetIntType()` is the target's native integer width, equal to Int32
precisely for descriptors of width 0 (the default) or 32. -/
def OpenBLASOutcome (rt : IRRuntime) : Prop :=
  (rt.getOpenBLASGetNumThreadsFunction).2 = "openblas_get_num_threads" ∧
  ((rt.getOpenBLASGetNumThreadsFunction).1.module.getFunction "openblas_get_num_threads")
    = some ⟨"openblas_get_num_threads", ⟨rt.getIntType, []⟩, 0⟩ ∧
  (rt.getOpenBLASSetNumThreadsFunction).2 = "openblas_set_num_threads" ∧
  ((rt.getOpenBLASSetNumThreadsFunction).1.module.getFunction "openblas_set_num_threads")
    = some ⟨"openblas_set_num_threads", ⟨.voidT, [rt.getIntType]⟩, 0⟩ ∧
  ((rt.module.target.numBits = 0 ∨ rt.module.target.numBits = 32) →
    rt.getIntType = .intT 32)

/-- C9 (amended): for every target descriptor (on a module not already
declaring the symbols), `GetOpenBLASGetNumThreadsFunction` declares
`openblas_get_num_threads` with signature `() -> GetIntType()` and
`GetOpenBLASSetNumThreadsFunction` declares `openblas_set_num_threads`
with signature `(GetIntType()) -> void`; that integer type is Int32 exactly
when the descriptor's width is 0 or 32. -/
theorem openblas_declarations (rt : IRRuntime)
    (h1 : rt.module.getFunction "openblas_get_num_threads" = none)
    (h2 : rt.module.getFunction "openblas_set_num_threads" = none) :
    OpenBLASOutcome rt := by
  simp only [ModuleState.getFunction] at h1 h2
  refine ⟨rfl, ?_, rfl, ?_, ?_⟩
  · simp only [IRRuntime.getOpenBLASGetNumThreadsFunction, ModuleState.getOrInsertFunction,
      ModuleState.getFunction]
    rw [lookupFn_declareFn_self, h1]
    rfl
  · simp only [IRRuntime.getOpenBLASSetNumThreadsFunction, ModuleState.getOrInsertFunction,
      ModuleState.getFunction]
    rw [lookupFn_declareFn_self, h2]
    rfl
  · rintro (h | h) <;> simp [IRRuntime.getIntType, h]

/-- C9 witness: the amended theorem applied at the fresh runtime `rt0`
(default 0-width descriptor, hence Int32). -/
theorem openblas_declarations_inst : OpenBLASOutcome rt0 :=
  openblas_declarations rt0 rfl rfl

/-- C1 counterexample: two calls to `GetDotProductFloatFunction` on the
same fresh module author TWO bodies for `m_DotProductFloat`, not exactly
one — the dot-product getters perform no presence check before opening the
function, so the second call opens it and emits the body again. -/
theorem dotProductFloat_two_bodies :
    ((((rt0.getDotProductFloatFunction).1.getDotProductFloatFunction).1.module.getFunction
        "m_DotProductFloat").map FuncDef.bodies = some 2) ∧
    ¬ ((((rt0.getDotProductFloatFunction).1.getDotProductFloatFunction).1.module.getFunction
        "m_DotProductFloat").map FuncDef.bodies = some 1) := by
  refine ⟨rfl, ?_⟩
  intro h
  exact absurd h (by decide)

/-- On a module not yet holding the fallback kernel, requesting it twice
returns the same handle, leaves the state of the first request untouched,
and the kernel ends up with exactly one authored body. -/
theorem getBlasKernel_fresh_idem (rt : IRRuntime) (bn nn : String) (ats : List LLVMType)
    (h : rt.module.getFunction nn = none) :
    (rt.getBlasKernel false bn nn ats).2
        = ((rt.getBlasKernel false bn nn ats).1.getBlasKernel false bn nn ats).2 ∧
    ((rt.getBlasKernel false bn nn ats).1.getBlasKernel false bn nn ats).1
        = (rt.getBlasKernel false bn nn ats).1 ∧
    ((rt.getBlasKernel false bn nn ats).1.module.getFunction nn).map FuncDef.bodies
        = some 1 := by
  have hlook : lookupFn (addBody rt.module.funcs nn ⟨.intT 32, ats⟩) nn
      = some ⟨nn, ⟨.intT 32, ats⟩, 1⟩ :=
    lookupFn_addBody_none _ (h : lookupFn rt.module.funcs nn = none)
  have hstate : rt.getBlasKernel false bn nn ats
      = ({ rt with module :=
            { rt.module with funcs := addBody rt.module.funcs nn ⟨.intT 32, ats⟩ } }, nn) := by
    unfold IRRuntime.getBlasKernel
    simp [h, ModuleState.beginEndFunction]
  have hsecond :
      ({ rt with module :=
          { rt.module with funcs := addBody rt.module.funcs nn ⟨.intT 32, ats⟩ } }
        : IRRuntime).getBlasKernel false bn nn ats
      = ({ rt with module :=
            { rt.module with funcs := addBody rt.module.funcs nn ⟨.intT 32, ats⟩ } }, nn) := by
    unfold IRRuntime.getBlasKernel
    simp [ModuleState.getFunction, hlook]
  refine ⟨?_, ?_, ?_⟩
  · rw [hstate, hsecond]
  · rw [hstate, hsecond]
  · rw [hstate]
    simp [ModuleState.getFunction, hlook]

/-- On a provider whose cache is empty and whose module does not yet hold
the `<module>_GetTime` function, `GetCurrentTimeFunction` succeeds with a
handle whose function carries exactly one authored body, and a second call
returns the identical handle and state (served from the provider cache). -/
theorem getCurrentTime_fresh_idem (rt : IRRuntime)
    (hc : rt.pGetCurrentTimeFunction = none)
    (hg : rt.module.getFunction (rt.module.moduleName ++ "_" ++ getTimeFunctionName) = none) :
    ∃ rt' f, rt.getCurrentTimeFunction = .ok (rt', f) ∧
      rt'.getCurrentTimeFunction = .ok (rt', f) ∧
      (rt'.module.getFunction f).map FuncDef.bodies = some 1 := by
  have hne1 : (rt.module.moduleName ++ "_" ++ getTimeFunctionName) ≠ "clock_gettime" :=
    getTime_ne_clock (rt.module.moduleName ++ "_")
  have hne2 : (rt.module.moduleName ++ "_" ++ getTimeFunctionName) ≠ "QueryPerformanceCounter" :=
    getTime_ne_qpc (rt.module.moduleName ++ "_")
  have hne3 : (rt.module.moduleName ++ "_" ++ getTimeFunctionName)
      ≠ "QueryPerformanceFrequency" :=
    getTime_ne_qpf (rt.module.moduleName ++ "_")
  simp only [ModuleState.getFunction] at hg
  by_cases hw : rt.module.target.isWindows = true
  · simp only [IRRuntime.getCurrentTimeFunction, hc, IRRuntime.gettimePreState,
      IRRuntime.resolveCurrentTimeFunction, ModuleState.declareFunction,
      ModuleState.beginEndFunction, IRRuntime.namespaceQualifier, hw, if_true]
    refine ⟨_, _, rfl, rfl, ?_⟩
    simp only [ModuleState.getFunction]
    rw [lookupFn_addBody_none]
    · rfl
    · rw [lookupFn_addBody_ne _ _ _ _ hne1, lookupFn_declareFn_ne _ _ _ _ hne3,
        lookupFn_declareFn_ne _ _ _ _ hne2, lookupFn_declareFn_ne _ _ _ _ hne1]
      exact hg
  · have hw' : rt.module.target.isWindows = false := by
      simpa using hw
    have hself : lookupFn
        (declareFn rt.module.funcs "clock_gettime" (clockGettimeDeclSig rt.getTimespecType))
        "clock_gettime"
        = some ((lookupFn rt.module.funcs "clock_gettime").getD
            ⟨"clock_gettime", clockGettimeDeclSig rt.getTimespecType, 0⟩) :=
      lookupFn_declareFn_self _ _ _
    simp only [IRRuntime.getCurrentTimeFunction, hc, IRRuntime.gettimePreState,
      IRRuntime.resolveCurrentTimeFunction, ModuleState.declareFunction,
      ModuleState.beginEndFunction, ModuleState.getFunction, IRRuntime.namespaceQualifier,
      hw', Bool.false_eq_true, if_false, hself, declareFn_of_some _ hself, Option.map_some]
    refine ⟨_, _, rfl, rfl, ?_⟩
    simp only [ModuleState.getFunction]
    rw [lookupFn_addBody_none]
    · rfl
    · rw [lookupFn_declareFn_ne _ _ _ _ hne1]
      exact hg

/-- Two calls to `GetDotProductFloatFunction` return the identical handle,
but, starting from a module without the function, leave TWO authored bodies
behind — each call opens the function and emits the body anew. -/
theorem getDotProductFloat_double_body (rt : IRRuntime)
    (h : rt.module.getFunction (rt.namespaceQualifier ++ "_" ++ dotProductFloatName) = none) :
    (rt.getDotProductFloatFunction).2
        = ((rt.getDotProductFloatFunction).1.getDotProductFloatFunction).2 ∧
    (((rt.getDotProductFloatFunction).1.getDotProductFloatFunction).1.module.getFunction
        (rt.namespaceQualifier ++ "_" ++ dotProductFloatName)).map FuncDef.bodies
      = some 2 := by
  simp only [ModuleState.getFunction, IRRuntime.namespaceQualifier] at h
  constructor
  · rfl
  · simp only [IRRuntime.getDotProductFloatFunction, ModuleState.beginEndFunction,
      ModuleState.getFunction, IRRuntime.namespaceQualifier]
    rw [lookupFn_addBody_some _ (lookupFn_addBody_none _ h)]
    rfl

/-- Two calls to `GetDotProductIntFunction` return the identical handle but
author two bodies, as in the float case. -/
theorem getDotProductInt_double_body (rt : IRRuntime)
    (h : rt.module.getFunction (rt.namespaceQualifier ++ "_" ++ dotProductIntName) = none) :
    (rt.getDotProductIntFunction).2
        = ((rt.getDotProductIntFunction).1.getDotProductIntFunction).2 ∧
    (((rt.getDotProductIntFunction).1.getDotProductIntFunction).1.module.getFunction
        (rt.namespaceQualifier ++ "_" ++ dotProductIntName)).map FuncDef.bodies
      = some 2 := by
  simp only [ModuleState.getFunction, IRRuntime.namespaceQualifier] at h
  constructor
  · rfl
  · simp only [IRRuntime.getDotProductIntFunction, ModuleState.beginEndFunction,
      ModuleState.getFunction, IRRuntime.namespaceQualifier]
    rw [lookupFn_addBody_some _ (lookupFn_addBody_none _ h)]
    rfl

/-- The idempotency behaviour the code actually has (C1 amended), on a
fresh provider/module: the four `noblas_*` fallback getters and
`GetCurrentTimeFunction` return identical handles on repeated calls with
exactly one authored body (the former guarded by a module presence check,
the latter by the provider cache); the two dot-product getters return
identical handles, but each call authors a body — two calls leave two
bodies, so "exactly one body is authored" fails for them. -/
def IdempotencyOutcome (rt : IRRuntime) : Prop :=
  ((rt.getSGEMVFunction false).2 = ((rt.getSGEMVFunction false).1.getSGEMVFunction false).2 ∧
   ((rt.getSGEMVFunction false).1.getSGEMVFunction false).1 = (rt.getSGEMVFunction false).1 ∧
   ((rt.getSGEMVFunction false).1.module.getFunction "noblas_sgemv").map FuncDef.bodies
     = some 1) ∧
  ((rt.getDGEMVFunction false).2 = ((rt.getDGEMVFunction false).1.getDGEMVFunction false).2 ∧
   ((rt.getDGEMVFunction false).1.getDGEMVFunction false).1 = (rt.getDGEMVFunction false).1 ∧
   ((rt.getDGEMVFunction false).1.module.getFunction "noblas_dgemv").map FuncDef.bodies
     = some 1) ∧
  ((rt.getSGEMMFunction false).2 = ((rt.getSGEMMFunction false).1.getSGEMMFunction false).2 ∧
   ((rt.getSGEMMFunction false).1.getSGEMMFunction false).1 = (rt.getSGEMMFunction false).1 ∧
   ((rt.getSGEMMFunction false).1.module.getFunction "noblas_sgemm").map FuncDef.bodies
     = some 1) ∧
  ((rt.getDGEMMFunction false).2 = ((rt.getDGEMMFunction false).1.getDGEMMFunction false).2 ∧
   ((rt.getDGEMMFunction false).1.getDGEMMFunction false).1 = (rt.getDGEMMFunction false).1 ∧
   ((rt.getDGEMMFunction false).1.module.getFunction "noblas_dgemm").map FuncDef.bodies
     = some 1) ∧
  (∃ rt' f, rt.getCurrentTimeFunction = .ok (rt', f) ∧
    rt'.getCurrentTimeFunction = .ok (rt', f) ∧
    (rt'.module.getFunction f).map FuncDef.bodies = some 1) ∧
  ((rt.getDotProductFloatFunction).2
      = ((rt.getDotProductFloatFunction).1.getDotProductFloatFunction).2 ∧
   (((rt.getDotProductFloatFunction).1.getDotProductFloatFunction).1.module.getFunction
      (rt.namespaceQualifier ++ "_" ++ dotProductFloatName)).map FuncDef.bodies = some 2) ∧
  ((rt.getDotProductIntFunction).2
      = ((rt.getDotProductIntFunction).1.getDotProductIntFunction).2 ∧
   (((rt.getDotProductIntFunction).1.getDotProductIntFunction).1.module.getFunction
      (rt.namespaceQualifier ++ "_" ++ dotProductIntName)).map FuncDef.bodies = some 2)

/-- C1 (amended): on a module that does not yet hold the requested
functions (and a provider with an empty time cache), repeated requests for
the same logical function return handles referring to the identical
underlying function for all the listed getters; exactly one function body
is authored for the `noblas_*` fallback getters and
`GetCurrentTimeFunction`, whereas each call to `GetDotProductFloatFunction`
or `GetDotProductIntFunction` authors an additional body into the single
underlying function (two calls leave two bodies). -/
theorem runtime_idempotency_amended (rt : IRRuntime)
    (h1 : rt.module.getFunction "noblas_sgemv" = none)
    (h2 : rt.module.getFunction "noblas_dgemv" = none)
    (h3 : rt.module.getFunction "noblas_sgemm" = none)
    (h4 : rt.module.getFunction "noblas_dgemm" = none)
    (h5 : rt.pGetCurrentTimeFunction = none)
    (h6 : rt.module.getFunction (rt.module.moduleName ++ "_" ++ getTimeFunctionName) = none)
    (h7 : rt.module.getFunction (rt.namespaceQualifier ++ "_" ++ dotProductFloatName) = none)
    (h8 : rt.module.getFunction (rt.namespaceQualifier ++ "_" ++ dotProductIntName) = none) :
    IdempotencyOutcome rt :=
  ⟨getBlasKernel_fresh_idem rt "cblas_sgemv" "noblas_sgemv" sgemvArgTypes h1,
   getBlasKernel_fresh_idem rt "cblas_dgemv" "noblas_dgemv" dgemvArgTypes h2,
   getBlasKernel_fresh_idem rt "cblas_sgemm" "noblas_sgemm" sgemmArgTypes h3,
   getBlasKernel_fresh_idem rt "cblas_dgemm" "noblas_dgemm" dgemmArgTypes h4,
   getCurrentTime_fresh_idem rt h5 h6,
   getDotProductFloat_double_body rt h7,
   getDotProductInt_double_body rt h8⟩

/-- C1 witness: the amended idempotency theorem applied at the fresh
runtime `rt0`, discharging every freshness hypothesis by evaluation. -/
theorem runtime_idempotency_amended_inst : IdempotencyOutcome rt0 :=
  runtime_idempotency_amended rt0 rfl rfl rfl rfl rfl rfl rfl rfl

end ELL
